import Mathlib

/-!
A shallow embedding of the Engine API orchestration layer of go-zond
(`zond/catalyst/api.go`): the invalid-chain tracker, the new-payload and
fork-choice state machines, and the payload-body queries, together with
theorems checking the specification's testable properties against it.

External collaborators (chain store, downloader, miner, transaction pool)
are modelled as oracles recorded in an environment; each API call also
returns an explicit record of the collaborator invocations it performed,
so that frame conditions ("method X was never called") are statable.
Hashes and addresses are abstracted to natural numbers; a header carries
its own hash value as a field (standing for `Header.Hash()`).
-/

namespace Catalyst

/-- Block or state hashes, abstracted to naturals (`common.Hash`). -/
abbrev Hash := Nat

/-- Account addresses, abstracted to naturals (`common.Address`). -/
abbrev Address := Nat

/-- The all-zero hash `common.Hash{}`. -/
def zeroHash : Hash := 0

/-- `invalidBlockHitEviction` from api.go: hit count at which a bad block is
forgotten and allowed to be reprocessed. -/
def invalidBlockHitEviction : Nat := 128

/-- `invalidTipsetsCap` from api.go: capacity bound of the invalid-tipset map. -/
def invalidTipsetsCap : Nat := 512

/-- A block header (`types.Header`), reduced to the fields api.go reads.
`hashVal` stands for the derived `Header.Hash()`. -/
structure Header where
  hashVal : Hash
  parentHash : Hash
  number : Nat
  time : Nat
  withdrawalsHash : Option Hash
deriving DecidableEq, Repr

/-- A validator withdrawal (`types.Withdrawal`). -/
structure Withdrawal where
  index : Nat
  validator : Nat
  address : Address
  amount : Nat
deriving DecidableEq, Repr

/-- A block (`types.Block`): header plus the body parts api.go touches.
Transactions are kept as their marshalled bytes (wire encoding is out of
scope for the orchestrator); `withdrawals` is `none` for a nil list. -/
structure Block where
  header : Header
  txs : List (List Nat)
  withdrawals : Option (List Withdrawal)
deriving DecidableEq, Repr

/-- `Block.Hash()`. -/
def Block.hash (b : Block) : Hash := b.header.hashVal

/-- `Block.ParentHash()`. -/
def Block.parentHash (b : Block) : Hash := b.header.parentHash

/-- `Block.NumberU64()`. -/
def Block.number (b : Block) : Nat := b.header.number

/-- `Block.Time()`. -/
def Block.time (b : Block) : Nat := b.header.time

/-- The closed status enumeration of engine replies. -/
inductive Status where
  | VALID
  | INVALID
  | SYNCING
  | ACCEPTED
deriving DecidableEq, Repr

/-- `engine.PayloadStatusV1`. -/
structure PayloadStatusV1 where
  status : Status
  latestValidHash : Option Hash
  validationError : Option String
deriving DecidableEq, Repr

/-- Association-list lookup, mirroring a Go map read (first binding wins;
the maps in api.go have unique keys). -/
def lookupA {α : Type} : List (Hash × α) → Hash → Option α
  | [], _ => none
  | p :: rest, h => if p.1 = h then some p.2 else lookupA rest h

/-- Association-list update, mirroring a Go map assignment. -/
def setA {α : Type} : List (Hash × α) → Hash → α → List (Hash × α)
  | [], h, v => [(h, v)]
  | p :: rest, h, v => if p.1 = h then (h, v) :: rest else p :: setA rest h v

/-- Association-list removal, mirroring `delete` on a Go map. -/
def eraseA {α : Type} : List (Hash × α) → Hash → List (Hash × α)
  | [], _ => []
  | p :: rest, h => if p.1 = h then eraseA rest h else p :: eraseA rest h

/-- Read of `invalidBlocksHits` (a missing key reads as 0, as in Go). -/
def getHits (l : List (Hash × Nat)) (h : Hash) : Nat := (lookupA l h).getD 0

/-- The two ephemeral bad-block maps of `ConsensusAPI`. -/
structure Tracker where
  invalidBlocksHits : List (Hash × Nat)
  invalidTipsets : List (Hash × Header)
deriving DecidableEq, Repr

/-- The eviction loop inside `checkInvalidAncestor`: delete every tipset
entry whose bad-ancestor header hashes to `badHash`. -/
def dropBad : List (Hash × Header) → Hash → List (Hash × Header)
  | [], _ => []
  | p :: rest, badHash =>
    if p.2.hashVal = badHash then dropBad rest badHash
    else p :: dropBad rest badHash

/-- The capacity loop inside `checkInvalidAncestor`: while the tipset map
holds at least `invalidTipsetsCap` entries, delete one (arbitrary in Go;
here the oldest). -/
def dropToCap (l : List (Hash × Header)) : List (Hash × Header) :=
  l.drop (l.length + 1 - invalidTipsetsCap)

/-- `ConsensusAPI.checkInvalidAncestor`: look up whether `check` descends
from a known bad block; on a hit bump the bad block's counter, evicting
everything once the counter reaches `invalidBlockHitEviction`, otherwise
propagate the poison mark to `head` and build the INVALID reply. Returns
the reply (`none` = no known problem) and the updated tracker. -/
def checkInvalidAncestor (t : Tracker) (check head : Hash) :
    Option PayloadStatusV1 × Tracker :=
  match lookupA t.invalidTipsets check with
  | none => (none, t)
  | some invalid =>
    let badHash := invalid.hashVal
    let newHits := getHits t.invalidBlocksHits badHash + 1
    if invalidBlockHitEviction ≤ newHits then
      (none,
        { invalidBlocksHits := eraseA t.invalidBlocksHits badHash,
          invalidTipsets := dropBad t.invalidTipsets badHash })
    else
      let hits1 := setA t.invalidBlocksHits badHash newHits
      let tipsets1 :=
        if check ≠ head then setA (dropToCap t.invalidTipsets) head invalid
        else t.invalidTipsets
      (some { status := .INVALID,
              latestValidHash := some invalid.parentHash,
              validationError := some "links to previously rejected block" },
        { invalidBlocksHits := hits1, invalidTipsets := tipsets1 })

/-- Search of the local block store by hash (`BlockChain.GetBlockByHash`). -/
def findBlock : List Block → Hash → Option Block
  | [], _ => none
  | b :: rest, h => if b.header.hashVal = h then some b else findBlock rest h

/-- Search of the local block store by hash and number (`BlockChain.GetBlock`). -/
def findBlockNum : List Block → Hash → Nat → Option Block
  | [], _, _ => none
  | b :: rest, h, n =>
    if b.header.hashVal = h ∧ b.header.number = n then some b
    else findBlockNum rest h n

/-- The local chain store (`BlockChain` collaborator), reduced to the reads
api.go performs. `canonicalHash` models `rawdb.ReadCanonicalHash`;
`byNumber` models `GetBlockByNumber`; `stateAvail` tells whether the state
for a block hash is locally executable. -/
structure Chain where
  blocks : List Block
  stateAvail : Hash → Bool
  canonicalHash : Nat → Hash
  currentBlock : Header
  byNumber : Nat → Option Block

/-- `BlockChain.HasBlockAndState`. -/
def Chain.hasBlockAndState (c : Chain) (h : Hash) (n : Nat) : Bool :=
  (findBlockNum c.blocks h n).isSome && c.stateAvail h

/-- Sync mode of the downloader (`downloader.FullSync` vs snap sync). -/
inductive SyncMode where
  | full
  | snap
deriving DecidableEq, Repr

/-- Modelled from the spec: `miner.BuildPayloadArgs` (its file is not under
src/, only its test). The five build attributes a payload id derives from. -/
structure BuildPayloadArgs where
  parent : Hash
  timestamp : Nat
  feeRecipient : Address
  random : Hash
  withdrawals : List Withdrawal
deriving DecidableEq, Repr

/-- Modelled from the spec: `BuildPayloadArgs.Id` is not under src/; the
spec asks for a value deterministically derived from parent hash,
timestamp, fee recipient, randomness and withdrawals set such that
distinct requests get distinct identifiers, so the identifier is modelled
as the (injective) tuple of those five fields itself. -/
abbrev PayloadID := BuildPayloadArgs

/-- Modelled from the spec: the deterministic, collision-free derivation of
a payload identifier from the build attributes. -/
def buildPayloadArgsId (args : BuildPayloadArgs) : PayloadID := args

/-- Outcomes of the external collaborators: `none` means the call
succeeded, `some msg` that it returned the error `msg`. `setCanonicalOutcome`
also yields the chain view after the reorg and the last valid hash the
chain layer reports. -/
structure Env where
  syncMode : SyncMode
  insertOutcome : Block → Option String
  setCanonicalOutcome : Block → Chain × Hash × Option String
  beaconSyncOutcome : Header → Option Header → Option String
  beaconExtendOutcome : Header → Option String
  buildOutcome : BuildPayloadArgs → Option String
  txSyncOutcome : Option String

/-- Modelled from the spec: the bounded `headerQueue` (its file is not
under src/). `put` stores newest-first and truncates at capacity 256. -/
def hqPut (l : List (Hash × Header)) (h : Hash) (hd : Header) :
    List (Hash × Header) :=
  ((h, hd) :: l).take 256

/-- Modelled from the spec: `payloadQueue.has`, a presence check for a
build-job identifier. -/
def pqHas (l : List PayloadID) (id : PayloadID) : Bool := l.contains id

/-- Modelled from the spec: `payloadQueue.put`, registering a build job and
evicting the oldest entry beyond capacity 256. -/
def pqPut (l : List PayloadID) (id : PayloadID) : List PayloadID :=
  (id :: l).take 256

/-- The mutable state of `ConsensusAPI` together with its collaborators. -/
structure APIState where
  chain : Chain
  env : Env
  remoteBlocks : List (Hash × Header)
  localBlocks : List PayloadID
  tracker : Tracker

/-- The collaborator invocations one API call performed, so that frame
conditions are statable. -/
structure Effects where
  insertCalls : List Hash
  setCanonicalCalls : List Hash
  setFinalizedCalls : List Hash
  setSafeCalls : List Hash
  beaconSyncCalls : Nat
  beaconExtendCalls : Nat
  buildCalls : Nat
  txSyncCalls : Nat
  setSyncedCalls : Nat
  heartbeatUpdated : Bool
deriving DecidableEq, Repr

/-- No collaborator touched. -/
def noEffects : Effects :=
  { insertCalls := [], setCanonicalCalls := [], setFinalizedCalls := [],
    setSafeCalls := [], beaconSyncCalls := 0, beaconExtendCalls := 0,
    buildCalls := 0, txSyncCalls := 0, setSyncedCalls := 0,
    heartbeatUpdated := false }

/-- Effects of a call that only stashed the heartbeat timestamp. -/
def heartbeatOnly : Effects := { noEffects with heartbeatUpdated := true }

/-- Modelled from the spec: the machine-distinguishable error kinds of the
`beacon/engine` package (not under src/), message payloads elided. -/
inductive EngineError where
  | invalidParams
  | tooLargeRequest
  | invalidForkChoiceState
  | invalidPayloadAttributes
  | unknownPayload
  | internal (msg : String)
deriving DecidableEq, Repr

/-- Modelled from the spec: `engine.STATUS_INVALID`, the INVALID payload
status with no latest-valid hash. -/
def statusInvalidPS : PayloadStatusV1 :=
  { status := .INVALID, latestValidHash := none, validationError := none }

/-- Modelled from the spec: `engine.STATUS_SYNCING`. -/
def statusSyncingPS : PayloadStatusV1 :=
  { status := .SYNCING, latestValidHash := none, validationError := none }

/-- The `valid` closure inside `forkchoiceUpdated`: a VALID status carrying
the head hash as latest valid. -/
def validPS (h : Hash) : PayloadStatusV1 :=
  { status := .VALID, latestValidHash := some h, validationError := none }

/-- `ConsensusAPI.invalid`: an INVALID status whose latest-valid hash is
the supplied header's hash and whose validation error is the failure
message. -/
def invalidResp (msg : String) (latestValid : Option Header) : PayloadStatusV1 :=
  { status := .INVALID,
    latestValidHash := latestValid.map (fun h => h.hashVal),
    validationError := some msg }

/-- `engine.ForkchoiceStateV1`. -/
structure ForkchoiceState where
  headBlockHash : Hash
  safeBlockHash : Hash
  finalizedBlockHash : Hash
deriving DecidableEq, Repr

/-- `engine.PayloadAttributes` (the build parameters of a fork-choice
update). -/
structure PayloadAttributes where
  timestamp : Nat
  random : Hash
  suggestedFeeRecipient : Address
  withdrawals : List Withdrawal
deriving DecidableEq, Repr

/-- The executable data handed to `newPayload`; `malformed` stands for wire
payloads on which `engine.ExecutableDataToBlock` fails with the given
message, `wellFormed` for those it decodes to a block. -/
inductive ExecutableData where
  | malformed (msg : String)
  | wellFormed (block : Block)
deriving DecidableEq, Repr

/-- `engine.ExecutionPayloadBodyV1`. -/
structure ExecutionPayloadBodyV1 where
  transactionData : List (List Nat)
  withdrawals : Option (List Withdrawal)
deriving DecidableEq, Repr

/-- `getBody` from api.go: a nil block yields a nil body entry; otherwise
the marshalled transactions are collected and a nil withdrawal list is
replaced by an empty one exactly when the header carries a withdrawals
hash (post-shanghai block). -/
def getBody : Option Block → Option ExecutionPayloadBodyV1
  | none => none
  | some b =>
    let withdrawals :=
      match b.withdrawals with
      | none => if b.header.withdrawalsHash ≠ none then some [] else none
      | some ws => some ws
    some { transactionData := b.txs, withdrawals := withdrawals }

/-- `GetPayloadBodiesByHashV1`: one body-or-nil entry per requested hash,
in order. -/
def GetPayloadBodiesByHashV1 (s : APIState) (hashes : List Hash) :
    List (Option ExecutionPayloadBodyV1) :=
  hashes.map (fun h => getBody (findBlock s.chain.blocks h))

/-- `GetPayloadBodiesByRangeV1`: parameter errors for a zero start or
count, a distinct error for counts above 1024, and otherwise the bodies of
blocks `start .. min (start+count-1) currentHead`, where the end of the
range is computed in uint64 arithmetic as in Go. -/
def GetPayloadBodiesByRangeV1 (s : APIState) (start count : Nat) :
    Except EngineError (List (Option ExecutionPayloadBodyV1)) :=
  if start = 0 ∨ count = 0 then .error .invalidParams
  else if 1024 < count then .error .tooLargeRequest
  else
    let current := s.chain.currentBlock.number
    let last0 := (start + count - 1) % 2 ^ 64
    let last := if current < last0 then current else last0
    .ok ((List.range' start (last + 1 - start)).map
      (fun i => getBody (s.chain.byNumber i)))

/-- `NumberU64() - 1` in Go's uint64 arithmetic. -/
def pred64 (n : Nat) : Nat := if n = 0 then 2 ^ 64 - 1 else n - 1

/-- The outcome of a `newPayload` call: the payload status, the RPC-level
error (always absent in api.go's newPayload), the post state and the
collaborator calls made. -/
structure NPOut where
  status : PayloadStatusV1
  err : Option EngineError
  state : APIState
  effects : Effects

/-- `ConsensusAPI.delayPayloadImport`: propagate poison from the parent,
else stash the header and try to extend a running sync; both the accepted
and the declined extension end in SYNCING. -/
def delayPayloadImport (s : APIState) (block : Block) (e : Effects) : NPOut :=
  let cia := checkInvalidAncestor s.tracker block.parentHash block.hash
  match cia.1 with
  | some res => { status := res, err := none,
                  state := { s with tracker := cia.2 }, effects := e }
  | none =>
    let s0 := { s with tracker := cia.2 }
    let s1 := { s0 with remoteBlocks := hqPut s.remoteBlocks block.hash block.header }
    let e1 := { e with beaconExtendCalls := e.beaconExtendCalls + 1 }
    match s1.env.beaconExtendOutcome block.header with
    | none => { status := statusSyncingPS, err := none, state := s1, effects := e1 }
    | some _ => { status := statusSyncingPS, err := none, state := s1, effects := e1 }

/-- `ConsensusAPI.newPayload`: decode, short-circuit on an already-known
block, reject known-bad chains, defer on a missing parent or non-full sync
mode, sanity-check the timestamp, stash when the parent state is absent,
and otherwise insert without setting the head, recording a failed block as
a fresh bad block. -/
def newPayload (s : APIState) (params : ExecutableData) : NPOut :=
  match params with
  | .malformed msg =>
    { status := { status := .INVALID, latestValidHash := none,
                  validationError := some msg },
      err := none, state := s, effects := noEffects }
  | .wellFormed block =>
    match findBlock s.chain.blocks block.hash with
    | some b =>
      { status := { status := .VALID, latestValidHash := some b.hash,
                    validationError := none },
        err := none, state := s, effects := heartbeatOnly }
    | none =>
      let cia := checkInvalidAncestor s.tracker block.hash block.hash
      match cia.1 with
      | some res =>
        { status := res, err := none,
          state := { s with tracker := cia.2 }, effects := heartbeatOnly }
      | none =>
        let s1 := { s with tracker := cia.2 }
        match findBlockNum s1.chain.blocks block.parentHash (pred64 block.number) with
        | none => delayPayloadImport s1 block heartbeatOnly
        | some parent =>
          if block.time ≤ parent.time then
            { status := invalidResp "invalid timestamp" (some parent.header),
              err := none, state := s1, effects := heartbeatOnly }
          else if s1.env.syncMode ≠ .full then
            delayPayloadImport s1 block heartbeatOnly
          else if ¬ s1.chain.hasBlockAndState block.parentHash (pred64 block.number) then
            { status := { status := .ACCEPTED, latestValidHash := none,
                          validationError := none },
              err := none,
              state := { s1 with
                remoteBlocks := hqPut s1.remoteBlocks block.hash block.header },
              effects := heartbeatOnly }
          else
            let e1 := { heartbeatOnly with insertCalls := [block.hash] }
            match s1.env.insertOutcome block with
            | some msg =>
              let t2 : Tracker :=
                { invalidBlocksHits :=
                    setA s1.tracker.invalidBlocksHits block.hash 1,
                  invalidTipsets :=
                    setA s1.tracker.invalidTipsets block.hash block.header }
              { status := invalidResp msg (some parent.header), err := none,
                state := { s1 with tracker := t2 }, effects := e1 }
            | none =>
              { status := { status := .VALID, latestValidHash := some block.hash,
                            validationError := none },
                err := none,
                state := { s1 with
                  chain := { s1.chain with blocks := block :: s1.chain.blocks } },
                effects := e1 }

/-- The outcome of a `forkchoiceUpdated` call: the payload status, the
returned payload id, the RPC-level error, the post state and the
collaborator calls made. -/
structure FCOut where
  status : PayloadStatusV1
  payloadID : Option PayloadID
  err : Option EngineError
  state : APIState
  effects : Effects

/-- The payload-construction tail of `forkchoiceUpdated` once the head,
finalized and safe checks all passed: request block assembly unless an
identical build job is already registered. -/
def fcuDoBuild (s : APIState) (headHash : Hash) (args : BuildPayloadArgs)
    (e : Effects) : FCOut :=
  let e1 := { e with buildCalls := e.buildCalls + 1 }
  match s.env.buildOutcome args with
  | some _ =>
    { status := validPS headHash, payloadID := none,
      err := some EngineError.invalidPayloadAttributes, state := s, effects := e1 }
  | none =>
    { status := validPS headHash,
      payloadID := some (buildPayloadArgsId args), err := none,
      state := { s with localBlocks := pqPut s.localBlocks (buildPayloadArgsId args) },
      effects := e1 }

/-- The payload-attributes step of `forkchoiceUpdated`: derive the id,
short-circuit on an existing job, in simulator mode first block on the
transaction-pool reset, then build. -/
def fcuPayloadStep (s : APIState) (headHash : Hash)
    (attrs : Option PayloadAttributes) (simulatorMode : Bool)
    (e : Effects) : FCOut :=
  match attrs with
  | none =>
    { status := validPS headHash, payloadID := none, err := none,
      state := s, effects := e }
  | some a =>
    let args : BuildPayloadArgs :=
      { parent := headHash, timestamp := a.timestamp,
        feeRecipient := a.suggestedFeeRecipient, random := a.random,
        withdrawals := a.withdrawals }
    if pqHas s.localBlocks (buildPayloadArgsId args) then
      { status := validPS headHash, payloadID := some (buildPayloadArgsId args),
        err := none, state := s, effects := e }
    else if simulatorMode then
      match s.env.txSyncOutcome with
      | some _ =>
        { status := validPS headHash, payloadID := none,
          err := some EngineError.invalidPayloadAttributes, state := s,
          effects := { e with txSyncCalls := e.txSyncCalls + 1 } }
      | none => fcuDoBuild s headHash args { e with txSyncCalls := e.txSyncCalls + 1 }
    else fcuDoBuild s headHash args e

/-- The safe-marker step of `forkchoiceUpdated`: a non-zero safe hash must
resolve to a locally canonical block, which is then marked safe. -/
def fcuSafeStep (s : APIState) (u : ForkchoiceState)
    (attrs : Option PayloadAttributes) (simulatorMode : Bool)
    (e : Effects) : FCOut :=
  if u.safeBlockHash ≠ zeroHash then
    match findBlock s.chain.blocks u.safeBlockHash with
    | none =>
      { status := statusInvalidPS, payloadID := none,
        err := some EngineError.invalidForkChoiceState, state := s, effects := e }
    | some safeBlock =>
      if s.chain.canonicalHash safeBlock.number ≠ u.safeBlockHash then
        { status := statusInvalidPS, payloadID := none,
          err := some EngineError.invalidForkChoiceState, state := s, effects := e }
      else
        fcuPayloadStep s u.headBlockHash attrs simulatorMode
          { e with setSafeCalls := [safeBlock.hash] }
  else fcuPayloadStep s u.headBlockHash attrs simulatorMode e

/-- The finalized-marker step of `forkchoiceUpdated`: a non-zero finalized
hash must resolve to a locally canonical block, which is then finalized. -/
def fcuFinalStep (s : APIState) (u : ForkchoiceState)
    (attrs : Option PayloadAttributes) (simulatorMode : Bool)
    (e : Effects) : FCOut :=
  if u.finalizedBlockHash ≠ zeroHash then
    match findBlock s.chain.blocks u.finalizedBlockHash with
    | none =>
      { status := statusInvalidPS, payloadID := none,
        err := some EngineError.invalidForkChoiceState, state := s, effects := e }
    | some finalBlock =>
      if s.chain.canonicalHash finalBlock.number ≠ u.finalizedBlockHash then
        { status := statusInvalidPS, payloadID := none,
          err := some EngineError.invalidForkChoiceState, state := s, effects := e }
      else
        fcuSafeStep s u attrs simulatorMode
          { e with setFinalizedCalls := [finalBlock.hash] }
  else fcuSafeStep s u attrs simulatorMode e

/-- The tail of `forkchoiceUpdated` after the head was accepted: mark the
node synced, then run the finalized, safe and payload-attribute steps. -/
def fcuAfterHead (s : APIState) (u : ForkchoiceState)
    (attrs : Option PayloadAttributes) (simulatorMode : Bool)
    (e : Effects) : FCOut :=
  fcuFinalStep s u attrs simulatorMode
    { e with setSyncedCalls := e.setSyncedCalls + 1 }

/-- `ConsensusAPI.forkchoiceUpdated`: reject the zero head outright, stash
the heartbeat, then resolve the head locally (possibly rejecting a
known-bad chain or starting a beacon sync), canonicalize a non-canonical
head, ignore a stale echo of an old canonical head, and finally process
finalized / safe markers and payload attributes. -/
def forkchoiceUpdated (s : APIState) (u : ForkchoiceState)
    (attrs : Option PayloadAttributes) (simulatorMode : Bool) : FCOut :=
  if u.headBlockHash = zeroHash then
    { status := statusInvalidPS, payloadID := none, err := none,
      state := s, effects := noEffects }
  else
    match findBlock s.chain.blocks u.headBlockHash with
    | none =>
      let cia := checkInvalidAncestor s.tracker u.headBlockHash u.headBlockHash
      match cia.1 with
      | some res =>
        { status := res, payloadID := none, err := none,
          state := { s with tracker := cia.2 }, effects := heartbeatOnly }
      | none =>
        let s1 := { s with tracker := cia.2 }
        match lookupA s1.remoteBlocks u.headBlockHash with
        | none =>
          { status := statusSyncingPS, payloadID := none, err := none,
            state := s1, effects := heartbeatOnly }
        | some header =>
          let finalized := lookupA s1.remoteBlocks u.finalizedBlockHash
          let e1 := { heartbeatOnly with beaconSyncCalls := 1 }
          match s1.env.beaconSyncOutcome header finalized with
          | some msg =>
            { status := statusSyncingPS, payloadID := none,
              err := some (EngineError.internal msg), state := s1, effects := e1 }
          | none =>
            { status := statusSyncingPS, payloadID := none, err := none,
              state := s1, effects := e1 }
    | some block =>
      if s.chain.canonicalHash block.number ≠ u.headBlockHash then
        let outcome := s.env.setCanonicalOutcome block
        let e1 := { heartbeatOnly with setCanonicalCalls := [block.hash] }
        match outcome.2.2 with
        | some msg =>
          { status := { status := .INVALID, latestValidHash := some outcome.2.1,
                        validationError := none },
            payloadID := none, err := some (EngineError.internal msg),
            state := s, effects := e1 }
        | none =>
          fcuAfterHead { s with chain := outcome.1 } u attrs simulatorMode e1
      else if s.chain.currentBlock.hashVal = u.headBlockHash then
        fcuAfterHead s u attrs simulatorMode heartbeatOnly
      else
        { status := validPS u.headBlockHash, payloadID := none, err := none,
          state := s, effects := heartbeatOnly }

/-! Concrete states and inputs used by the witness and counterexample
theorems. -/

/-- The build arguments `forkchoiceUpdated` assembles from a fork-choice
state and payload attributes. -/
def fcArgsOf (u : ForkchoiceState) (a : PayloadAttributes) : BuildPayloadArgs :=
  { parent := u.headBlockHash, timestamp := a.timestamp,
    feeRecipient := a.suggestedFeeRecipient, random := a.random,
    withdrawals := a.withdrawals }

/-- A chain store with no data at all, used as the post-reorg view of the
trivial collaborator environment. -/
def emptyChain : Chain :=
  { blocks := [], stateAvail := fun _ => false, canonicalHash := fun _ => 0,
    currentBlock := { hashVal := 0, parentHash := 0, number := 0, time := 0,
                      withdrawalsHash := none },
    byNumber := fun _ => none }

/-- A collaborator environment in which every external call succeeds. -/
def plainEnv : Env :=
  { syncMode := .full, insertOutcome := fun _ => none,
    setCanonicalOutcome := fun _ => (emptyChain, 0, none),
    beaconSyncOutcome := fun _ _ => none, beaconExtendOutcome := fun _ => none,
    buildOutcome := fun _ => none, txSyncOutcome := none }

/-- Concrete bad-ancestor header for the C2 witness. -/
def hdrC2 : Header :=
  { hashVal := 2, parentHash := 1, number := 1, time := 0, withdrawalsHash := none }

/-- Concrete tracker for the C2 witness: the tip 5 descends from the bad
block 2 whose counter already stands at 127. -/
def trackerC2 : Tracker :=
  { invalidBlocksHits := [(2, 127)], invalidTipsets := [(5, hdrC2)] }

/-- Concrete bad-ancestor header for the C8 witness. -/
def hdrC8 : Header :=
  { hashVal := 2, parentHash := 1, number := 1, time := 0, withdrawalsHash := none }

/-- Concrete tracker for the C8 witness: the tip 5 descends from the bad
block 2 whose counter stands at 3. -/
def trackerC8 : Tracker :=
  { invalidBlocksHits := [(2, 3)], invalidTipsets := [(5, hdrC8)] }

/-- Concrete post-shanghai block with a nil withdrawals list for the C10
witness. -/
def blkC10 : Block :=
  { header := { hashVal := 4, parentHash := 3, number := 2, time := 9,
                withdrawalsHash := some 11 },
    txs := [[1, 2], [3]], withdrawals := none }

/-- A block used to populate the three-block chain of the range-query
witnesses. -/
def blkRange : Block :=
  { header := { hashVal := 21, parentHash := 20, number := 1, time := 1,
                withdrawalsHash := none },
    txs := [], withdrawals := some [] }

/-- A chain whose head number is 3 and which serves bodies for heights
1 to 3, for the range-query witnesses. -/
def chainRange : Chain :=
  { blocks := [], stateAvail := fun _ => false, canonicalHash := fun _ => 0,
    currentBlock := { hashVal := 23, parentHash := 22, number := 3, time := 3,
                      withdrawalsHash := none },
    byNumber := fun i => if 1 ≤ i ∧ i ≤ 3 then some blkRange else none }

/-- The API state of the range-query witnesses: a three-block chain. -/
def sRange : APIState :=
  { chain := chainRange, env := plainEnv, remoteBlocks := [], localBlocks := [],
    tracker := { invalidBlocksHits := [], invalidTipsets := [] } }

/-- The canonical head block of the C7 states. -/
def blkC7 : Block :=
  { header := { hashVal := 1, parentHash := 0, number := 0, time := 0,
                withdrawalsHash := none },
    txs := [], withdrawals := some [] }

/-- A chain whose canonical current head is `blkC7`. -/
def chainC7 : Chain :=
  { blocks := [blkC7], stateAvail := fun _ => true,
    canonicalHash := fun n => if n = 0 then 1 else 0,
    currentBlock := blkC7.header, byNumber := fun _ => none }

/-- The API state of the C7 theorems. -/
def sC7 : APIState :=
  { chain := chainC7, env := plainEnv, remoteBlocks := [], localBlocks := [],
    tracker := { invalidBlocksHits := [], invalidTipsets := [] } }

/-- The fork-choice state of the C4 witness, naming the C7 chain head. -/
def uC4 : ForkchoiceState :=
  { headBlockHash := 1, safeBlockHash := 0, finalizedBlockHash := 0 }

/-- The payload attributes of the C4 witness. -/
def attrsC4 : PayloadAttributes :=
  { timestamp := 12, random := 34, suggestedFeeRecipient := 56,
    withdrawals := [{ index := 0, validator := 0, address := 0, amount := 0 }] }

/-- The parent of the bad block in the C1 witness. -/
def parentC1 : Block :=
  { header := { hashVal := 10, parentHash := 9, number := 1, time := 5,
                withdrawalsHash := none },
    txs := [], withdrawals := some [] }

/-- The bad block B of the C1 witness (its insertion fails). -/
def badC1 : Block :=
  { header := { hashVal := 20, parentHash := 10, number := 2, time := 6,
                withdrawalsHash := none },
    txs := [], withdrawals := some [] }

/-- The child C of the bad block in the C1 witness. -/
def childC1 : Block :=
  { header := { hashVal := 30, parentHash := 20, number := 3, time := 7,
                withdrawalsHash := none },
    txs := [], withdrawals := some [] }

/-- The chain of the C1 witness: only the parent block, with its state. -/
def chainC1 : Chain :=
  { blocks := [parentC1], stateAvail := fun h => h == 10,
    canonicalHash := fun _ => 0, currentBlock := parentC1.header,
    byNumber := fun _ => none }

/-- The environment of the C1 witness: inserting block 20 fails. -/
def envC1 : Env :=
  { syncMode := .full,
    insertOutcome := fun b => if b.header.hashVal = 20 then some "bad block" else none,
    setCanonicalOutcome := fun _ => (emptyChain, 0, none),
    beaconSyncOutcome := fun _ _ => none, beaconExtendOutcome := fun _ => none,
    buildOutcome := fun _ => none, txSyncOutcome := none }

/-- The API state of the C1 witness. -/
def sC1 : APIState :=
  { chain := chainC1, env := envC1, remoteBlocks := [], localBlocks := [],
    tracker := { invalidBlocksHits := [], invalidTipsets := [] } }

/-- The bad-ancestor header of the C3 counterexample (hash 2). -/
def hdrC3 : Header :=
  { hashVal := 2, parentHash := 1, number := 1, time := 5,
    withdrawalsHash := none }

/-- The resubmitted payload of the C3 counterexample: a child of the bad
block 2. -/
def childC3 : Block :=
  { header := { hashVal := 3, parentHash := 2, number := 2, time := 6,
                withdrawalsHash := none },
    txs := [], withdrawals := some [] }

/-- The API state of the C3 counterexample: block 3 is a known descendant
of the bad block 2, whose hit counter already stands at 126. -/
def sC3 : APIState :=
  { chain := emptyChain, env := plainEnv, remoteBlocks := [], localBlocks := [],
    tracker := { invalidBlocksHits := [(2, 126)],
                 invalidTipsets := [(3, hdrC3)] } }

/-- The API state of the C3 witness: an empty tracker and a chain that
already contains the resubmitted block. -/
def sC3W : APIState :=
  { chain := { blocks := [childC3], stateAvail := fun _ => true,
               canonicalHash := fun _ => 0, currentBlock := childC3.header,
               byNumber := fun _ => none },
    env := plainEnv, remoteBlocks := [], localBlocks := [],
    tracker := { invalidBlocksHits := [], invalidTipsets := [] } }

/-! Helper lemmas about the association-list operations. -/

theorem lookupA_setA_self {α : Type} (l : List (Hash × α)) (h : Hash) (v : α) :
    lookupA (setA l h v) h = some v := by
  induction l with
  | nil => simp [setA, lookupA]
  | cons p rest ih =>
    by_cases hp : p.1 = h
    · simp [setA, hp, lookupA]
    · simp [setA, hp, lookupA, ih]

theorem lookupA_setA_ne {α : Type} (l : List (Hash × α)) (h k : Hash) (v : α)
    (hne : h ≠ k) : lookupA (setA l k v) h = lookupA l h := by
  induction l with
  | nil => simp [setA, lookupA, Ne.symm hne]
  | cons p rest ih =>
    by_cases hp : p.1 = k
    · simp [setA, hp, lookupA, Ne.symm hne]
    · simp [setA, hp, lookupA, ih]

theorem getHits_setA_self (l : List (Hash × Nat)) (h : Hash) (v : Nat) :
    getHits (setA l h v) h = v := by
  simp [getHits, lookupA_setA_self]

theorem lookupA_eraseA_self {α : Type} (l : List (Hash × α)) (h : Hash) :
    lookupA (eraseA l h) h = none := by
  induction l with
  | nil => simp [eraseA, lookupA]
  | cons p rest ih =>
    by_cases hp : p.1 = h
    · simp [eraseA, hp, ih]
    · simp [eraseA, hp, lookupA, ih]

theorem lookupA_dropBad_bad (l : List (Hash × Header)) (b d : Hash)
    (hd : Header) (hfound : lookupA (dropBad l b) d = some hd) :
    hd.hashVal ≠ b := by
  induction l with
  | nil => simp [dropBad, lookupA] at hfound
  | cons p rest ih =>
    by_cases hb : p.2.hashVal = b
    · exact ih (by simpa [dropBad, hb] using hfound)
    · by_cases hq : p.1 = d
      · have : p.2 = hd := by simpa [dropBad, hb, lookupA, hq] using hfound
        rw [← this]
        exact hb
      · exact ih (by simpa [dropBad, hb, lookupA, hq] using hfound)

theorem lookupA_dropBad_of_none (l : List (Hash × Header)) (b d : Hash)
    (hnone : lookupA l d = none) : lookupA (dropBad l b) d = none := by
  induction l with
  | nil => simp [dropBad, lookupA]
  | cons p rest ih =>
    by_cases hq : p.1 = d
    · simp [lookupA, hq] at hnone
    · have hrest : lookupA rest d = none := by simpa [lookupA, hq] using hnone
      by_cases hb : p.2.hashVal = b
      · simp [dropBad, hb, ih hrest]
      · simp [dropBad, hb, lookupA, hq, ih hrest]

theorem lookupA_none_of_not_mem_keys {α : Type} (l : List (Hash × α)) (d : Hash)
    (hnm : d ∉ l.map Prod.fst) : lookupA l d = none := by
  induction l with
  | nil => simp [lookupA]
  | cons p rest ih =>
    simp only [List.map_cons, List.mem_cons] at hnm
    push_neg at hnm
    simp [lookupA, Ne.symm hnm.1, ih hnm.2]

theorem lookupA_dropBad_of_bad (l : List (Hash × Header)) (b d : Hash)
    (hd : Header) (hnodup : (l.map Prod.fst).Nodup)
    (hfound : lookupA l d = some hd) (hbad : hd.hashVal = b) :
    lookupA (dropBad l b) d = none := by
  induction l with
  | nil => simp [lookupA] at hfound
  | cons p rest ih =>
    simp only [List.map_cons, List.nodup_cons] at hnodup
    by_cases hq : p.1 = d
    · have hpd : p.2 = hd := by simpa [lookupA, hq] using hfound
      have hrest : lookupA rest d = none := by
        refine lookupA_none_of_not_mem_keys rest d ?_
        rw [← hq]
        exact hnodup.1
      have hb : p.2.hashVal = b := by rw [hpd, hbad]
      simp [dropBad, hb, lookupA_dropBad_of_none rest b d hrest]
    · have hrest : lookupA rest d = some hd := by simpa [lookupA, hq] using hfound
      by_cases hb : p.2.hashVal = b
      · simp [dropBad, hb, ih hnodup.2 hrest]
      · simp [dropBad, hb, lookupA, hq, ih hnodup.2 hrest]

theorem setA_length_le {α : Type} (l : List (Hash × α)) (h : Hash) (v : α) :
    (setA l h v).length ≤ l.length + 1 := by
  induction l with
  | nil => simp [setA]
  | cons p rest ih =>
    by_cases hp : p.1 = h
    · simp [setA, hp]
    · simp only [setA, hp, if_false, List.length_cons]
      omega

theorem dropToCap_length_le (l : List (Hash × Header)) :
    (dropToCap l).length ≤ invalidTipsetsCap - 1 := by
  simp only [dropToCap, List.length_drop, invalidTipsetsCap]
  omega

theorem getHits_le_of_bound (l : List (Hash × Nat)) (k : Nat)
    (hb : ∀ p ∈ l, p.2 ≤ k) (h : Hash) : getHits l h ≤ k := by
  induction l with
  | nil => simp [getHits, lookupA]
  | cons p rest ih =>
    by_cases hp : p.1 = h
    · simpa [getHits, lookupA, hp] using hb p (List.mem_cons_self p rest)
    · simpa [getHits, lookupA, hp] using
        ih (fun q hq => hb q (List.mem_cons_of_mem p hq))

/-! Helper lemmas about the block store searches. -/

theorem findBlockNum_none_of_findBlock_none (l : List Block) (h : Hash) (n : Nat)
    (hnone : findBlock l h = none) : findBlockNum l h n = none := by
  induction l with
  | nil => simp [findBlockNum]
  | cons b rest ih =>
    by_cases hb : b.header.hashVal = h
    · simp [findBlock, hb] at hnone
    · have hrest : findBlock rest h = none := by simpa [findBlock, hb] using hnone
      simp [findBlockNum, hb, ih hrest]

theorem findBlockNum_hashVal (l : List Block) (h : Hash) (n : Nat) (p : Block)
    (hfound : findBlockNum l h n = some p) : p.header.hashVal = h := by
  induction l with
  | nil => simp [findBlockNum] at hfound
  | cons b rest ih =>
    by_cases hb : b.header.hashVal = h ∧ b.header.number = n
    · have : b = p := by simpa [findBlockNum, hb] using hfound
      rw [← this]
      exact hb.1
    · exact ih (by simpa [findBlockNum, hb] using hfound)

theorem findBlock_cons_self (l : List Block) (b : Block) :
    findBlock (b :: l) b.hash = some b := by
  simp [findBlock, Block.hash]

theorem pqHas_pqPut_self (l : List PayloadID) (id : PayloadID) :
    pqHas (pqPut l id) id = true := by
  simp [pqHas, pqPut, List.take_cons, List.contains_cons]

/-! Branch equations for `checkInvalidAncestor`. -/

theorem cia_not_found (t : Tracker) (check head : Hash)
    (h : lookupA t.invalidTipsets check = none) :
    checkInvalidAncestor t check head = (none, t) := by
  simp [checkInvalidAncestor, h]

theorem cia_evict (t : Tracker) (check head : Hash) (inv : Header)
    (h : lookupA t.invalidTipsets check = some inv)
    (hthresh : invalidBlockHitEviction ≤ getHits t.invalidBlocksHits inv.hashVal + 1) :
    checkInvalidAncestor t check head =
      (none,
        { invalidBlocksHits := eraseA t.invalidBlocksHits inv.hashVal,
          invalidTipsets := dropBad t.invalidTipsets inv.hashVal }) := by
  simp [checkInvalidAncestor, h, hthresh]

theorem cia_keep_self (t : Tracker) (check : Hash) (inv : Header)
    (h : lookupA t.invalidTipsets check = some inv)
    (hlt : getHits t.invalidBlocksHits inv.hashVal + 1 < invalidBlockHitEviction) :
    checkInvalidAncestor t check check =
      (some { status := .INVALID, latestValidHash := some inv.parentHash,
              validationError := some "links to previously rejected block" },
        { invalidBlocksHits :=
            setA t.invalidBlocksHits inv.hashVal
              (getHits t.invalidBlocksHits inv.hashVal + 1),
          invalidTipsets := t.invalidTipsets }) := by
  simp [checkInvalidAncestor, h, Nat.not_le.mpr hlt]

theorem cia_keep_propagate (t : Tracker) (check head : Hash) (inv : Header)
    (h : lookupA t.invalidTipsets check = some inv)
    (hlt : getHits t.invalidBlocksHits inv.hashVal + 1 < invalidBlockHitEviction)
    (hne : check ≠ head) :
    checkInvalidAncestor t check head =
      (some { status := .INVALID, latestValidHash := some inv.parentHash,
              validationError := some "links to previously rejected block" },
        { invalidBlocksHits :=
            setA t.invalidBlocksHits inv.hashVal
              (getHits t.invalidBlocksHits inv.hashVal + 1),
          invalidTipsets := setA (dropToCap t.invalidTipsets) head inv }) := by
  simp [checkInvalidAncestor, h, Nat.not_le.mpr hlt, hne]

/-! Claim C2: poison eviction liveness. -/

/-- Claim C2: a `checkInvalidAncestor` lookup that finds a tipset entry
increments the hit counter of the bad-ancestor hash; once that counter
reaches the threshold 128 the counter entry is deleted, every tipset entry
whose bad-ancestor header hashes to that hash is deleted, the lookup
returns absent, and the next lookup for any descendant of that hash also
returns absent. -/
theorem poison_eviction_liveness (t : Tracker) (check head : Hash) (inv : Header)
    (hnodup : (t.invalidTipsets.map Prod.fst).Nodup)
    (hfound : lookupA t.invalidTipsets check = some inv)
    (hthresh : invalidBlockHitEviction ≤ getHits t.invalidBlocksHits inv.hashVal + 1) :
    (checkInvalidAncestor t check head).1 = none ∧
    lookupA (checkInvalidAncestor t check head).2.invalidBlocksHits inv.hashVal = none ∧
    (∀ d hd, lookupA (checkInvalidAncestor t check head).2.invalidTipsets d = some hd →
      hd.hashVal ≠ inv.hashVal) ∧
    (∀ d hd, lookupA t.invalidTipsets d = some hd → hd.hashVal = inv.hashVal →
      ∀ h2, (checkInvalidAncestor (checkInvalidAncestor t check head).2 d h2).1 = none) := by
  rw [cia_evict t check head inv hfound hthresh]
  refine ⟨rfl, lookupA_eraseA_self _ _, ?_, ?_⟩
  · intro d hd hl
    exact lookupA_dropBad_bad _ _ _ _ hl
  · intro d hd hl hbad h2
    have hnone : lookupA (dropBad t.invalidTipsets inv.hashVal) d = none :=
      lookupA_dropBad_of_bad _ _ _ _ hnodup hl hbad
    rw [cia_not_found _ _ _ hnone]

/-- Witness for C2: the 128th hit evicts, and the following lookup for the
descendant 5 reports no known problem. -/
theorem poison_eviction_liveness_witness :
    (checkInvalidAncestor trackerC2 5 5).1 = none ∧
    lookupA (checkInvalidAncestor trackerC2 5 5).2.invalidBlocksHits 2 = none ∧
    (checkInvalidAncestor (checkInvalidAncestor trackerC2 5 5).2 5 5).1 = none := by
  have h := poison_eviction_liveness trackerC2 5 5 hdrC2 (by decide) (by decide) (by decide)
  exact ⟨h.1, h.2.1, h.2.2.2 5 hdrC2 (by decide) (by decide) 5⟩

/-! Claim C8: the invalid-ancestor reply and forward propagation. -/

set_option maxRecDepth 4096 in
/-- Claim C8: below the eviction threshold, `checkInvalidAncestor` answers
INVALID with the bad ancestor's parent as latest-valid hash and the
validation error "links to previously rejected block"; it increments the
hit counter, and when the checked hash differs from the head it records
the head as a descendant of the bad ancestor while keeping the tipset map
within its capacity bound of 512. -/
theorem invalid_ancestor_reply (t : Tracker) (check head : Hash) (inv : Header)
    (hfound : lookupA t.invalidTipsets check = some inv)
    (hlt : getHits t.invalidBlocksHits inv.hashVal + 1 < invalidBlockHitEviction) :
    (checkInvalidAncestor t check head).1 =
      some { status := .INVALID, latestValidHash := some inv.parentHash,
             validationError := some "links to previously rejected block" } ∧
    getHits (checkInvalidAncestor t check head).2.invalidBlocksHits inv.hashVal =
      getHits t.invalidBlocksHits inv.hashVal + 1 ∧
    (check = head → (checkInvalidAncestor t check head).2.invalidTipsets = t.invalidTipsets) ∧
    (check ≠ head →
      lookupA (checkInvalidAncestor t check head).2.invalidTipsets head = some inv ∧
      (checkInvalidAncestor t check head).2.invalidTipsets.length ≤ invalidTipsetsCap) := by
  by_cases hch : check = head
  · subst hch
    rw [cia_keep_self t check inv hfound hlt]
    exact ⟨rfl, getHits_setA_self _ _ _, fun _ => rfl, fun hne => absurd rfl hne⟩
  · rw [cia_keep_propagate t check head inv hfound hlt hch]
    refine ⟨rfl, getHits_setA_self _ _ _, fun he => absurd he hch, fun _ => ?_⟩
    refine ⟨lookupA_setA_self _ _ _, ?_⟩
    have h1 := setA_length_le (dropToCap t.invalidTipsets) head inv
    have h2 := dropToCap_length_le t.invalidTipsets
    simp only [invalidTipsetsCap] at h2 ⊢
    omega

/-- Witness for C8: checking hash 5 for the new head 7 answers INVALID with
latest-valid 1 and propagates the poison mark onto 7. -/
theorem invalid_ancestor_reply_witness :
    (checkInvalidAncestor trackerC8 5 7).1 =
      some { status := .INVALID, latestValidHash := some 1,
             validationError := some "links to previously rejected block" } ∧
    lookupA (checkInvalidAncestor trackerC8 5 7).2.invalidTipsets 7 = some hdrC8 := by
  have h := invalid_ancestor_reply trackerC8 5 7 hdrC8 (by decide) (by decide)
  exact ⟨h.1, (h.2.2.2 (by decide)).1⟩

/-! Claim C10: withdrawals normalisation in payload bodies. -/

/-- Claim C10: a block whose body has a nil withdrawals list but whose
header carries a withdrawals hash yields a body with an empty, non-nil
withdrawals slice; an unknown block yields a nil body entry. -/
theorem getBody_withdrawals_normalised (b : Block)
    (hnil : b.withdrawals = none)
    (hwh : b.header.withdrawalsHash ≠ none) :
    getBody (some b) = some { transactionData := b.txs, withdrawals := some [] } ∧
    getBody none = (none : Option ExecutionPayloadBodyV1) := by
  simp [getBody, hnil, hwh]

/-- Witness for C10 at a concrete block. -/
theorem getBody_withdrawals_normalised_witness :
    getBody (some blkC10) =
      some { transactionData := [[1, 2], [3]], withdrawals := some [] } ∧
    getBody none = (none : Option ExecutionPayloadBodyV1) := by
  have h := getBody_withdrawals_normalised blkC10 (by decide) (by decide)
  exact h

/-! Claims C6 and C9: payload-body range queries. -/

/-- Claim C6: `GetPayloadBodiesByRangeV1` rejects a zero start or count as
a parameter error, rejects counts above 1024 with the distinct too-large
error, and otherwise answers with exactly the number of entries of the
requested range clamped at the current chain head. -/
theorem bodies_by_range_validation (s : APIState) (start count : Nat) :
    (start = 0 ∨ count = 0 →
      GetPayloadBodiesByRangeV1 s start count = .error .invalidParams) ∧
    (start ≠ 0 → 1024 < count →
      GetPayloadBodiesByRangeV1 s start count = .error .tooLargeRequest) ∧
    (1 ≤ start → 1 ≤ count → count ≤ 1024 → start + count ≤ 2 ^ 64 →
      ∃ l, GetPayloadBodiesByRangeV1 s start count = .ok l ∧
        l.length =
          min (start + count - 1) s.chain.currentBlock.number + 1 - start) := by
  refine ⟨?_, ?_, ?_⟩
  · intro h
    simp [GetPayloadBodiesByRangeV1, h]
  · intro hs hleft
    have hc : count ≠ 0 := by omega
    simp [GetPayloadBodiesByRangeV1, hs, hc, hleft]
  · intro hs hc hc2 hbound
    have hs0 : ¬ (start = 0 ∨ count = 0) := by omega
    have hcl : ¬ 1024 < count := by omega
    have hmod : (start + count - 1) % 2 ^ 64 = start + count - 1 :=
      Nat.mod_eq_of_lt (by omega)
    refine ⟨(List.range' start
        ((if s.chain.currentBlock.number < (start + count - 1) % 2 ^ 64 then
            s.chain.currentBlock.number
          else (start + count - 1) % 2 ^ 64) + 1 - start)).map
        (fun i => getBody (s.chain.byNumber i)), ?_, ?_⟩
    · simp [GetPayloadBodiesByRangeV1, hs0, hcl]
    · simp only [List.length_map, List.length_range', hmod]
      split <;> omega

/-- Claim C9: a valid-parameter range query whose start lies beyond the
current chain head answers with an empty body list and no error. -/
theorem bodies_by_range_beyond_head (s : APIState) (start count : Nat)
    (hs : 1 ≤ start) (hc : 1 ≤ count) (hc2 : count ≤ 1024)
    (hgt : s.chain.currentBlock.number < start) :
    GetPayloadBodiesByRangeV1 s start count = .ok [] := by
  have hs0 : ¬ (start = 0 ∨ count = 0) := by omega
  have hcl : ¬ 1024 < count := by omega
  simp only [GetPayloadBodiesByRangeV1, hs0, if_false, hcl]
  have hlen : (if s.chain.currentBlock.number < (start + count - 1) % 2 ^ 64 then
      s.chain.currentBlock.number else (start + count - 1) % 2 ^ 64) + 1 - start = 0 := by
    split <;> omega
  rw [hlen]
  rfl

/-- Witness for C6: both zero-parameter shapes are parameter errors, count
2000 is a too-large error, and a count-10 request over a 3-block chain is
clamped to exactly 3 entries. -/
theorem bodies_by_range_validation_witness :
    GetPayloadBodiesByRangeV1 sRange 0 5 = .error .invalidParams ∧
    GetPayloadBodiesByRangeV1 sRange 5 0 = .error .invalidParams ∧
    GetPayloadBodiesByRangeV1 sRange 1 2000 = .error .tooLargeRequest ∧
    ∃ l, GetPayloadBodiesByRangeV1 sRange 1 10 = .ok l ∧ l.length = 3 := by
  refine ⟨(bodies_by_range_validation sRange 0 5).1 (Or.inl rfl),
          (bodies_by_range_validation sRange 5 0).1 (Or.inr rfl),
          (bodies_by_range_validation sRange 1 2000).2.1 (by decide) (by decide), ?_⟩
  obtain ⟨l, hl, hlen⟩ :=
    (bodies_by_range_validation sRange 1 10).2.2 (by decide) (by decide)
      (by decide) (by norm_num)
  refine ⟨l, hl, ?_⟩
  rw [hlen]
  decide

/-- Witness for C9: a range starting past the head of the 3-block chain
yields an empty list. -/
theorem bodies_by_range_beyond_head_witness :
    GetPayloadBodiesByRangeV1 sRange 5 3 = .ok [] :=
  bodies_by_range_beyond_head sRange 5 3 (by decide) (by decide) (by decide)
    (by decide)

/-! Claim C5: zero-hash fork-choice. -/

/-- Claim C5: a fork-choice update whose head is the all-zero hash answers
INVALID with no payload id and no error, leaves the state untouched and
performs no collaborator call, not even the heartbeat stash. -/
theorem zero_hash_forkchoice (s : APIState) (safe fin : Hash)
    (attrs : Option PayloadAttributes) (sim : Bool) :
    forkchoiceUpdated s
      { headBlockHash := zeroHash, safeBlockHash := safe,
        finalizedBlockHash := fin } attrs sim =
      { status := statusInvalidPS, payloadID := none, err := none,
        state := s, effects := noEffects } := by
  simp [forkchoiceUpdated]

/-! Claim C7: fork-choice no-op on the current head.

Frame lemmas: none of the steps after the head resolution ever invokes the
canonicalization method. -/

theorem fcuDoBuild_no_setCanonical (s : APIState) (headHash : Hash)
    (args : BuildPayloadArgs) (e : Effects) :
    (fcuDoBuild s headHash args e).effects.setCanonicalCalls =
      e.setCanonicalCalls := by
  cases h : s.env.buildOutcome args <;> simp [fcuDoBuild, h]

theorem fcuPayloadStep_no_setCanonical (s : APIState) (headHash : Hash)
    (attrs : Option PayloadAttributes) (sim : Bool) (e : Effects) :
    (fcuPayloadStep s headHash attrs sim e).effects.setCanonicalCalls =
      e.setCanonicalCalls := by
  cases attrs with
  | none => rfl
  | some a =>
    simp only [fcuPayloadStep]
    split
    · rfl
    · split
      · cases h : s.env.txSyncOutcome <;>
          simp [h, fcuDoBuild_no_setCanonical]
      · simp [fcuDoBuild_no_setCanonical]

theorem fcuSafeStep_no_setCanonical (s : APIState) (u : ForkchoiceState)
    (attrs : Option PayloadAttributes) (sim : Bool) (e : Effects) :
    (fcuSafeStep s u attrs sim e).effects.setCanonicalCalls =
      e.setCanonicalCalls := by
  simp only [fcuSafeStep]
  split
  · cases h : findBlock s.chain.blocks u.safeBlockHash with
    | none => simp [h]
    | some safeBlock =>
      simp only [h]
      split
      · rfl
      · simp [fcuPayloadStep_no_setCanonical]
  · simp [fcuPayloadStep_no_setCanonical]

theorem fcuFinalStep_no_setCanonical (s : APIState) (u : ForkchoiceState)
    (attrs : Option PayloadAttributes) (sim : Bool) (e : Effects) :
    (fcuFinalStep s u attrs sim e).effects.setCanonicalCalls =
      e.setCanonicalCalls := by
  simp only [fcuFinalStep]
  split
  · cases h : findBlock s.chain.blocks u.finalizedBlockHash with
    | none => simp [h]
    | some finalBlock =>
      simp only [h]
      split
      · rfl
      · simp [fcuSafeStep_no_setCanonical]
  · simp [fcuSafeStep_no_setCanonical]

/-- Claim C7 (amended): a fork-choice update whose head equals the current
canonical head and that carries no payload attributes never invokes the
canonicalization method; and when its finalized and safe hashes are zero
it answers VALID with the head as latest-valid hash, no payload id and no
error. (The unconditional VALID of the original claim fails when a
non-zero finalized or safe hash does not resolve, see the
counterexample.) -/
theorem forkchoice_noop_current_head (s : APIState) (u : ForkchoiceState)
    (b : Block) (sim : Bool)
    (hz : u.headBlockHash ≠ zeroHash)
    (hfound : findBlock s.chain.blocks u.headBlockHash = some b)
    (hcanon : s.chain.canonicalHash b.number = u.headBlockHash)
    (hcur : s.chain.currentBlock.hashVal = u.headBlockHash) :
    (forkchoiceUpdated s u none sim).effects.setCanonicalCalls = [] ∧
    (u.finalizedBlockHash = zeroHash → u.safeBlockHash = zeroHash →
      forkchoiceUpdated s u none sim =
        { status := validPS u.headBlockHash, payloadID := none, err := none,
          state := s,
          effects := { heartbeatOnly with setSyncedCalls := 1 } }) := by
  have hmain : forkchoiceUpdated s u none sim =
      fcuAfterHead s u none sim heartbeatOnly := by
    simp [forkchoiceUpdated, hz, hfound, hcanon, hcur]
  constructor
  · rw [hmain]
    simp [fcuAfterHead, fcuFinalStep_no_setCanonical, heartbeatOnly, noEffects]
  · intro hfin hsafe
    rw [hmain]
    simp [fcuAfterHead, fcuFinalStep, fcuSafeStep, fcuPayloadStep, hfin, hsafe,
      heartbeatOnly, noEffects]

/-- Counterexample to C7 as stated: with the head equal to the current
canonical head and no payload attributes, but a finalized hash that does
not resolve locally, the call answers INVALID with an error instead of
VALID — so the claim's unconditional VALID does not hold. -/
theorem forkchoice_noop_current_head_counterexample :
    findBlock sC7.chain.blocks 1 = some blkC7 ∧
    sC7.chain.canonicalHash blkC7.number = 1 ∧
    sC7.chain.currentBlock.hashVal = 1 ∧
    (forkchoiceUpdated sC7
      { headBlockHash := 1, safeBlockHash := 0, finalizedBlockHash := 99 }
      none false).status.status = Status.INVALID ∧
    (forkchoiceUpdated sC7
      { headBlockHash := 1, safeBlockHash := 0, finalizedBlockHash := 99 }
      none false).err = some EngineError.invalidForkChoiceState := by
  refine ⟨by decide, by decide, by decide, ?_, ?_⟩ <;> decide

/-- Witness for the amended C7 at a concrete state: the re-sent current
head with zero markers is a pure no-op answering VALID. -/
theorem forkchoice_noop_current_head_witness :
    (forkchoiceUpdated sC7
      { headBlockHash := 1, safeBlockHash := 0, finalizedBlockHash := 0 }
      none false).effects.setCanonicalCalls = [] ∧
    forkchoiceUpdated sC7
      { headBlockHash := 1, safeBlockHash := 0, finalizedBlockHash := 0 }
      none false =
      { status := validPS 1, payloadID := none, err := none, state := sC7,
        effects := { heartbeatOnly with setSyncedCalls := 1 } } := by
  have h := forkchoice_noop_current_head sC7
    { headBlockHash := 1, safeBlockHash := 0, finalizedBlockHash := 0 }
    blkC7 false (by decide) (by decide) (by decide) (by decide)
  exact ⟨h.1, h.2 rfl rfl⟩

/-! Claim C4: payload id determinism and collision-avoidance. -/

/-- Claim C4: two fork-choice calls with identical build attributes derive
the same payload identifier; the first registers the build job (builder
invoked once), the second short-circuits to it (builder not invoked); and
the identifier derivation is injective, so changing any of the five fields
changes the identifier. -/
theorem payload_id_determinism (s : APIState) (u : ForkchoiceState)
    (a : PayloadAttributes) (b : Block)
    (hz : u.headBlockHash ≠ zeroHash)
    (hfound : findBlock s.chain.blocks u.headBlockHash = some b)
    (hcanon : s.chain.canonicalHash b.number = u.headBlockHash)
    (hcur : s.chain.currentBlock.hashVal = u.headBlockHash)
    (hfin : u.finalizedBlockHash = zeroHash)
    (hsafe : u.safeBlockHash = zeroHash)
    (hnew : pqHas s.localBlocks (buildPayloadArgsId (fcArgsOf u a)) = false)
    (hbuild : s.env.buildOutcome (fcArgsOf u a) = none) :
    (forkchoiceUpdated s u (some a) false).payloadID =
      some (buildPayloadArgsId (fcArgsOf u a)) ∧
    (forkchoiceUpdated s u (some a) false).effects.buildCalls = 1 ∧
    (forkchoiceUpdated (forkchoiceUpdated s u (some a) false).state
        u (some a) false).payloadID =
      some (buildPayloadArgsId (fcArgsOf u a)) ∧
    (forkchoiceUpdated (forkchoiceUpdated s u (some a) false).state
        u (some a) false).effects.buildCalls = 0 ∧
    (∀ x y : BuildPayloadArgs, x ≠ y →
      buildPayloadArgsId x ≠ buildPayloadArgsId y) := by
  simp only [fcArgsOf] at hnew hbuild
  have h1 : forkchoiceUpdated s u (some a) false =
      { status := validPS u.headBlockHash,
        payloadID := some (buildPayloadArgsId (fcArgsOf u a)), err := none,
        state := { s with localBlocks := pqPut s.localBlocks (buildPayloadArgsId (fcArgsOf u a)) },
        effects := { heartbeatOnly with setSyncedCalls := 1, buildCalls := 1 } } := by
    simp [forkchoiceUpdated, hz, hfound, hcanon, hcur, fcuAfterHead,
      fcuFinalStep, fcuSafeStep, fcuPayloadStep, hfin, hsafe, fcArgsOf, hnew,
      fcuDoBuild, hbuild, heartbeatOnly, noEffects]
  have h2 : forkchoiceUpdated (forkchoiceUpdated s u (some a) false).state
      u (some a) false =
      { status := validPS u.headBlockHash,
        payloadID := some (buildPayloadArgsId (fcArgsOf u a)), err := none,
        state := (forkchoiceUpdated s u (some a) false).state,
        effects := { heartbeatOnly with setSyncedCalls := 1 } } := by
    rw [h1]
    simp [forkchoiceUpdated, hz, hfound, hcanon, hcur, fcuAfterHead,
      fcuFinalStep, fcuSafeStep, fcuPayloadStep, hfin, hsafe, fcArgsOf,
      pqHas_pqPut_self, heartbeatOnly, noEffects]
  refine ⟨by rw [h1], by rw [h1], by rw [h2], by rw [h2]; rfl, ?_⟩
  intro x y hxy
  simpa [buildPayloadArgsId] using hxy

/-- Witness for C4: at a concrete state, two identical fork-choice calls
return the same identifier, the builder runs exactly once, and changing
the timestamp changes the identifier. -/
theorem payload_id_determinism_witness :
    (forkchoiceUpdated sC7 uC4 (some attrsC4) false).payloadID =
      some (buildPayloadArgsId (fcArgsOf uC4 attrsC4)) ∧
    (forkchoiceUpdated sC7 uC4 (some attrsC4) false).effects.buildCalls = 1 ∧
    (forkchoiceUpdated (forkchoiceUpdated sC7 uC4 (some attrsC4) false).state
        uC4 (some attrsC4) false).payloadID =
      some (buildPayloadArgsId (fcArgsOf uC4 attrsC4)) ∧
    (forkchoiceUpdated (forkchoiceUpdated sC7 uC4 (some attrsC4) false).state
        uC4 (some attrsC4) false).effects.buildCalls = 0 ∧
    buildPayloadArgsId (fcArgsOf uC4 attrsC4) ≠
      buildPayloadArgsId { fcArgsOf uC4 attrsC4 with timestamp := 13 } := by
  have h := payload_id_determinism sC7 uC4 attrsC4 blkC7 (by decide) (by decide)
    (by decide) (by decide) (by decide) (by decide) (by decide) rfl
  exact ⟨h.1, h.2.1, h.2.2.1, h.2.2.2.1, h.2.2.2.2 _ _ (by decide)⟩

/-! Claim C1: poison propagation from a failed insertion to the child. -/

/-- Claim C1: when `newPayload(B)` fails chain insertion (recording B as a
bad block with hit count 1 and a self-mapped tipset entry), the subsequent
`newPayload(C)` for a fresh child C of B answers INVALID with B's parent
as latest-valid hash, and never invokes the chain-store insertion method
for C. -/
theorem poison_propagation (s : APIState) (B C parentB : Block) (msg : String)
    (hB1 : findBlock s.chain.blocks B.hash = none)
    (hB2 : lookupA s.tracker.invalidTipsets B.hash = none)
    (hB3 : findBlockNum s.chain.blocks B.parentHash (pred64 B.number) = some parentB)
    (hB4 : parentB.time < B.time)
    (hB5 : s.env.syncMode = .full)
    (hB6 : s.chain.hasBlockAndState B.parentHash (pred64 B.number) = true)
    (hB7 : s.env.insertOutcome B = some msg)
    (hC1 : C.parentHash = B.hash)
    (hC2 : findBlock s.chain.blocks C.hash = none)
    (hC3 : lookupA s.tracker.invalidTipsets C.hash = none)
    (hCB : C.hash ≠ B.hash) :
    lookupA (newPayload s (.wellFormed B)).state.tracker.invalidBlocksHits B.hash =
      some 1 ∧
    lookupA (newPayload s (.wellFormed B)).state.tracker.invalidTipsets B.hash =
      some B.header ∧
    (newPayload (newPayload s (.wellFormed B)).state (.wellFormed C)).status =
      { status := .INVALID, latestValidHash := some B.parentHash,
        validationError := some "links to previously rejected block" } ∧
    (newPayload (newPayload s (.wellFormed B)).state (.wellFormed C)).effects.insertCalls =
      [] := by
  have hnotle : ¬ (B.time ≤ parentB.time) := Nat.not_le.mpr hB4
  have hcia := cia_not_found s.tracker B.hash B.hash hB2
  have h1 : newPayload s (.wellFormed B) =
      { status := invalidResp msg (some parentB.header), err := none,
        state := { s with tracker :=
          { invalidBlocksHits := setA s.tracker.invalidBlocksHits B.hash 1,
            invalidTipsets := setA s.tracker.invalidTipsets B.hash B.header } },
        effects := { heartbeatOnly with insertCalls := [B.hash] } } := by
    simp [newPayload, hB1, hcia, hB3, hnotle, hB5, hB6, hB7]
  set t2 : Tracker :=
    { invalidBlocksHits := setA s.tracker.invalidBlocksHits B.hash 1,
      invalidTipsets := setA s.tracker.invalidTipsets B.hash B.header } with ht2
  have hlookC : lookupA t2.invalidTipsets C.hash = none := by
    rw [ht2]
    simpa [lookupA_setA_ne _ _ _ _ hCB] using hC3
  have hciaC := cia_not_found t2 C.hash C.hash hlookC
  have hlookB : lookupA t2.invalidTipsets B.hash = some B.header := by
    rw [ht2]
    exact lookupA_setA_self _ _ _
  have hhits : getHits t2.invalidBlocksHits B.header.hashVal + 1 <
      invalidBlockHitEviction := by
    have : getHits t2.invalidBlocksHits B.header.hashVal = 1 := by
      rw [ht2]
      exact getHits_setA_self _ _ _
    rw [this]
    decide
  have hciaB := cia_keep_propagate t2 B.hash C.hash B.header hlookB hhits
    (Ne.symm hCB)
  have hparentC : findBlockNum s.chain.blocks B.hash (pred64 C.number) = none :=
    findBlockNum_none_of_findBlock_none _ _ _ hB1
  rw [h1]
  refine ⟨?_, ?_, ?_, ?_⟩
  · exact lookupA_setA_self _ _ _
  · exact lookupA_setA_self _ _ _
  · simp [newPayload, hC2, hciaC, hC1, hparentC, delayPayloadImport, hciaB]
    rfl
  · simp [newPayload, hC2, hciaC, hC1, hparentC, delayPayloadImport, hciaB,
      heartbeatOnly, noEffects]

/-- Witness for C1 at a concrete bad block and child. -/
theorem poison_propagation_witness :
    lookupA (newPayload sC1 (.wellFormed badC1)).state.tracker.invalidBlocksHits 20 =
      some 1 ∧
    lookupA (newPayload sC1 (.wellFormed badC1)).state.tracker.invalidTipsets 20 =
      some badC1.header ∧
    (newPayload (newPayload sC1 (.wellFormed badC1)).state (.wellFormed childC1)).status =
      { status := .INVALID, latestValidHash := some 10,
        validationError := some "links to previously rejected block" } ∧
    (newPayload (newPayload sC1 (.wellFormed badC1)).state
        (.wellFormed childC1)).effects.insertCalls = [] := by
  have h := poison_propagation sC1 badC1 childC1 parentC1 "bad block"
    (by decide) (by decide) (by decide) (by decide) (by decide) (by decide)
    (by decide) (by decide) (by decide) (by decide) (by decide)
  exact h

/-! Claim C3: idempotence of new-payload. -/

/-- Counterexample to C3 as stated: submitting the identical payload twice
in sequence yields INVALID and then SYNCING, because the second call tips
the bad block's hit counter over the eviction threshold of 128 and the
poison data is forgotten mid-way. -/
theorem newPayload_idempotence_counterexample :
    (newPayload sC3 (.wellFormed childC3)).status.status = Status.INVALID ∧
    (newPayload (newPayload sC3 (.wellFormed childC3)).state
        (.wellFormed childC3)).status.status = Status.SYNCING := by
  exact ⟨rfl, rfl⟩

set_option maxRecDepth 8192 in
/-- Claim C3 (amended): provided every recorded invalid-block hit counter
is at most 125 — so the two calls cannot tip any counter over the eviction
threshold of 128 — submitting the same executable payload twice in
sequence yields the same terminal status and latest-valid hash both times
and the second call never invokes the chain-store insertion method; in
particular a payload whose block is already in chain storage answers VALID
with that block's hash as latest-valid without touching any collaborator
but the heartbeat. -/
theorem newPayload_idempotent (s : APIState) (P : ExecutableData)
    (hb : ∀ p ∈ s.tracker.invalidBlocksHits, p.2 ≤ 125) :
    (newPayload s P).status.status =
      (newPayload (newPayload s P).state P).status.status ∧
    (newPayload s P).status.latestValidHash =
      (newPayload (newPayload s P).state P).status.latestValidHash ∧
    (newPayload (newPayload s P).state P).effects.insertCalls = [] ∧
    (∀ blk bfound, P = .wellFormed blk →
      findBlock s.chain.blocks blk.hash = some bfound →
      newPayload s P =
        { status := { status := .VALID, latestValidHash := some bfound.hash,
                      validationError := none },
          err := none, state := s, effects := heartbeatOnly }) := by
  have hgb := getHits_le_of_bound s.tracker.invalidBlocksHits 125 hb
  have hshort : ∀ blk bfound, P = .wellFormed blk →
      findBlock s.chain.blocks blk.hash = some bfound →
      newPayload s P =
        { status := { status := .VALID, latestValidHash := some bfound.hash,
                      validationError := none },
          err := none, state := s, effects := heartbeatOnly } := by
    intro blk bfound hP hfound
    subst hP
    simp [newPayload, hfound]
  have main : (newPayload s P).status.status =
      (newPayload (newPayload s P).state P).status.status ∧
    (newPayload s P).status.latestValidHash =
      (newPayload (newPayload s P).state P).status.latestValidHash ∧
    (newPayload (newPayload s P).state P).effects.insertCalls = [] := by
    cases P with
    | malformed msg => simp [newPayload, noEffects]
    | wellFormed b =>
      cases h0 : findBlock s.chain.blocks b.hash with
      | some blk => simp [newPayload, h0, heartbeatOnly, noEffects]
      | none =>
        cases hfd : lookupA s.tracker.invalidTipsets b.hash with
        | some inv =>
          have hg := hgb inv.hashVal
          have hlt1 : getHits s.tracker.invalidBlocksHits inv.hashVal + 1 <
              invalidBlockHitEviction := by
            simp only [invalidBlockHitEviction]
            omega
          have hc1 := cia_keep_self s.tracker b.hash inv hfd hlt1
          have hlt2 : getHits (setA s.tracker.invalidBlocksHits inv.hashVal
              (getHits s.tracker.invalidBlocksHits inv.hashVal + 1)) inv.hashVal + 1 <
              invalidBlockHitEviction := by
            rw [getHits_setA_self]
            simp only [invalidBlockHitEviction]
            omega
          have hc2 := cia_keep_self
            (Tracker.mk (setA s.tracker.invalidBlocksHits inv.hashVal
              (getHits s.tracker.invalidBlocksHits inv.hashVal + 1))
              s.tracker.invalidTipsets) b.hash inv hfd hlt2
          simp [newPayload, h0, hc1, hc2, heartbeatOnly, noEffects]
        | none =>
          have hc1 := cia_not_found s.tracker b.hash b.hash hfd
          cases hpar : findBlockNum s.chain.blocks b.parentHash (pred64 b.number) with
          | none =>
            cases hdel : lookupA s.tracker.invalidTipsets b.parentHash with
            | none =>
              have hcp := cia_not_found s.tracker b.parentHash b.hash hdel
              cases hext : s.env.beaconExtendOutcome b.header with
              | none =>
                simp [newPayload, h0, hc1, hpar, delayPayloadImport, hcp, hext,
                  heartbeatOnly, noEffects]
              | some emsg =>
                simp [newPayload, h0, hc1, hpar, delayPayloadImport, hcp, hext,
                  heartbeatOnly, noEffects]
            | some inv2 =>
              have hne : b.parentHash ≠ b.hash := by
                intro he
                rw [he, hfd] at hdel
                exact Option.noConfusion hdel
              have hg := hgb inv2.hashVal
              have hltp : getHits s.tracker.invalidBlocksHits inv2.hashVal + 1 <
                  invalidBlockHitEviction := by
                simp only [invalidBlockHitEviction]
                omega
              have hciaP := cia_keep_propagate s.tracker b.parentHash b.hash inv2
                hdel hltp hne
              have hlook2 : lookupA (setA (dropToCap s.tracker.invalidTipsets)
                  b.hash inv2) b.hash = some inv2 := lookupA_setA_self _ _ _
              have hlt2 : getHits (setA s.tracker.invalidBlocksHits inv2.hashVal
                  (getHits s.tracker.invalidBlocksHits inv2.hashVal + 1)) inv2.hashVal + 1 <
                  invalidBlockHitEviction := by
                rw [getHits_setA_self]
                simp only [invalidBlockHitEviction]
                omega
              have hc2 := cia_keep_self
                (Tracker.mk (setA s.tracker.invalidBlocksHits inv2.hashVal
                  (getHits s.tracker.invalidBlocksHits inv2.hashVal + 1))
                  (setA (dropToCap s.tracker.invalidTipsets) b.hash inv2))
                b.hash inv2 hlook2 hlt2
              simp [newPayload, h0, hc1, hpar, delayPayloadImport, hciaP, hc2,
                heartbeatOnly, noEffects]
          | some parent =>
            by_cases ht : b.time ≤ parent.time
            · simp [newPayload, h0, hc1, hpar, ht, heartbeatOnly, noEffects]
            · by_cases hsm : s.env.syncMode = SyncMode.full
              · by_cases hhs : s.chain.hasBlockAndState b.parentHash
                    (pred64 b.number) = true
                · cases hins : s.env.insertOutcome b with
                  | some msg =>
                    have hlookB : lookupA (setA s.tracker.invalidTipsets b.hash
                        b.header) b.hash = some b.header := lookupA_setA_self _ _ _
                    have hhit1 : getHits (setA s.tracker.invalidBlocksHits b.hash 1)
                        b.header.hashVal = 1 := getHits_setA_self _ _ _
                    have hlt2 : getHits (setA s.tracker.invalidBlocksHits b.hash 1)
                        b.header.hashVal + 1 < invalidBlockHitEviction := by
                      rw [hhit1]
                      decide
                    have hc2 := cia_keep_self
                      (Tracker.mk (setA s.tracker.invalidBlocksHits b.hash 1)
                        (setA s.tracker.invalidTipsets b.hash b.header))
                      b.hash b.header hlookB hlt2
                    have hpv : parent.header.hashVal = b.parentHash :=
                      findBlockNum_hashVal _ _ _ _ hpar
                    simp [newPayload, h0, hc1, hpar, ht, hsm, hhs, hins, hc2,
                      invalidResp, heartbeatOnly, noEffects, hpv]
                    rfl
                  | none =>
                    have hfound2 : findBlock (b :: s.chain.blocks) b.hash = some b :=
                      findBlock_cons_self _ _
                    simp [newPayload, h0, hc1, hpar, ht, hsm, hhs, hins, hfound2,
                      heartbeatOnly, noEffects]
                · simp only [Bool.not_eq_true] at hhs
                  simp [newPayload, h0, hc1, hpar, ht, hsm, hhs, heartbeatOnly,
                    noEffects]
              · cases hdel : lookupA s.tracker.invalidTipsets b.parentHash with
                | none =>
                  have hcp := cia_not_found s.tracker b.parentHash b.hash hdel
                  cases hext : s.env.beaconExtendOutcome b.header with
                  | none =>
                    simp [newPayload, h0, hc1, hpar, ht, hsm, delayPayloadImport,
                      hcp, hext, heartbeatOnly, noEffects]
                  | some emsg =>
                    simp [newPayload, h0, hc1, hpar, ht, hsm, delayPayloadImport,
                      hcp, hext, heartbeatOnly, noEffects]
                | some inv2 =>
                  have hne : b.parentHash ≠ b.hash := by
                    intro he
                    rw [he, hfd] at hdel
                    exact Option.noConfusion hdel
                  have hg := hgb inv2.hashVal
                  have hltp : getHits s.tracker.invalidBlocksHits inv2.hashVal + 1 <
                      invalidBlockHitEviction := by
                    simp only [invalidBlockHitEviction]
                    omega
                  have hciaP := cia_keep_propagate s.tracker b.parentHash b.hash
                    inv2 hdel hltp hne
                  have hlook2 : lookupA (setA (dropToCap s.tracker.invalidTipsets)
                      b.hash inv2) b.hash = some inv2 := lookupA_setA_self _ _ _
                  have hlt2 : getHits (setA s.tracker.invalidBlocksHits inv2.hashVal
                      (getHits s.tracker.invalidBlocksHits inv2.hashVal + 1)) inv2.hashVal + 1 <
                      invalidBlockHitEviction := by
                    rw [getHits_setA_self]
                    simp only [invalidBlockHitEviction]
                    omega
                  have hc2 := cia_keep_self
                    (Tracker.mk (setA s.tracker.invalidBlocksHits inv2.hashVal
                      (getHits s.tracker.invalidBlocksHits inv2.hashVal + 1))
                      (setA (dropToCap s.tracker.invalidTipsets) b.hash inv2))
                    b.hash inv2 hlook2 hlt2
                  simp [newPayload, h0, hc1, hpar, ht, hsm, delayPayloadImport,
                    hciaP, hc2, heartbeatOnly, noEffects]
  exact ⟨main.1, main.2.1, main.2.2, hshort⟩

/-- Witness for the amended C3 at a concrete state: resubmitting a block
already in storage answers VALID twice without insertion. -/
theorem newPayload_idempotent_witness :
    (newPayload sC3W (.wellFormed childC3)).status.status =
      (newPayload (newPayload sC3W (.wellFormed childC3)).state
        (.wellFormed childC3)).status.status ∧
    (newPayload sC3W (.wellFormed childC3)).status.latestValidHash =
      (newPayload (newPayload sC3W (.wellFormed childC3)).state
        (.wellFormed childC3)).status.latestValidHash ∧
    (newPayload (newPayload sC3W (.wellFormed childC3)).state
        (.wellFormed childC3)).effects.insertCalls = [] ∧
    newPayload sC3W (.wellFormed childC3) =
      { status := { status := .VALID, latestValidHash := some childC3.hash,
                    validationError := none },
        err := none, state := sC3W, effects := heartbeatOnly } := by
  have h := newPayload_idempotent sC3W (.wellFormed childC3)
    (by intro p hp; simp [sC3W] at hp)
  exact ⟨h.1, h.2.1, h.2.2.1, h.2.2.2 childC3 childC3 rfl (by decide)⟩

end Catalyst
